import Mathlib

/-!
Shallow embedding of `lib/service_share/searx_worker/google_scholar.py`
(a searx engine adapter for Google Scholar) and proofs about it.

The module has three functions:
* `time_range_url params` — returns a URL query fragment for a time range;
* `request query params`  — builds the outbound URL and headers from a
  JSON-encoded query payload, mutating the params bag;
* `response resp`         — parses the upstream HTML into result records.

External collaborators (Python stdlib `json`/`urllib`/`datetime`, and the
searx framework's `get_lang_info`, `eval_xpath`/`extract_text`, the
blocked-page detector) are modelled at their interface: the resolved
locale descriptor, the decoded JSON payload, and the results of the fixed
XPath queries are inputs of the embedded functions, and `urlencode` /
`str` coercions are re-implemented following their documented semantics.
-/

namespace GScholar

/-- Python values that can appear in a decoded JSON payload.  `json.loads`
produces nestings of dict, list, str, int/float, bool and None; floats are
not needed by any claim and are omitted (numbers are integers here). -/
inductive Json where
  | null : Json
  | bool (b : Bool) : Json
  | num (n : Int) : Json
  | str (s : String) : Json
  | arr (xs : List Json) : Json
  | obj (fields : List (String × Json)) : Json

/-- Python `repr` of a payload value, as used inside containers by `str`.
Escapes backslash and single quote inside string literals. -/
def pyEscape (s : String) : String :=
  String.mk (s.data.foldr
    (fun c acc =>
      if c = '\\' then '\\' :: '\\' :: acc
      else if c = '\'' then '\\' :: '\'' :: acc
      else c :: acc) [])

mutual

/-- Python `repr` of a `Json` value. -/
def pyRepr : Json → String
  | .null => "None"
  | .bool true => "True"
  | .bool false => "False"
  | .num n => toString n
  | .str s => "'" ++ pyEscape s ++ "'"
  | .arr xs => "[" ++ String.intercalate ", " (pyReprList xs) ++ "]"
  | .obj fs => "\x7b" ++ String.intercalate ", " (pyReprFields fs) ++ "\x7d"

/-- Helper: `repr` of each element of a list of values. -/
def pyReprList : List Json → List String
  | [] => []
  | x :: xs => pyRepr x :: pyReprList xs

/-- Helper: `repr` of each `key: value` pair of a dict. -/
def pyReprFields : List (String × Json) → List String
  | [] => []
  | (k, v) :: fs => ("'" ++ pyEscape k ++ "': " ++ pyRepr v) :: pyReprFields fs

end

/-- Python `str()` of a `Json` value: strings are returned verbatim, all
other values print as their `repr`. -/
def pyStr : Json → String
  | .str s => s
  | v => pyRepr v

/-- UTF-8 bytes of one character, as a list of naturals < 256. -/
def utf8Bytes (c : Char) : List Nat :=
  let n := c.toNat
  if n < 0x80 then [n]
  else if n < 0x800 then [0xC0 + n / 64, 0x80 + n % 64]
  else if n < 0x10000 then [0xE0 + n / 4096, 0x80 + (n / 64) % 64, 0x80 + n % 64]
  else [0xF0 + n / 262144, 0x80 + (n / 4096) % 64, 0x80 + (n / 64) % 64, 0x80 + n % 64]

/-- Uppercase hex digit of a natural < 16. -/
def hexDigit (n : Nat) : Char :=
  if n < 10 then Char.ofNat (48 + n) else Char.ofNat (55 + n)

/-- Is this byte in `urllib.parse.quote_plus`'s always-safe set
(alphanumerics and `_.-~`)? -/
def isSafeByte (b : Nat) : Bool :=
  (48 ≤ b && b ≤ 57) || (65 ≤ b && b ≤ 90) || (97 ≤ b && b ≤ 122) ||
    b = 45 || b = 46 || b = 95 || b = 126

/-- Percent-encoding of one UTF-8 byte, space mapping to `+`
(`urllib.parse.quote_plus`). -/
def quoteByte (b : Nat) : List Char :=
  if b = 32 then ['+']
  else if isSafeByte b then [Char.ofNat b]
  else ['%', hexDigit (b / 16), hexDigit (b % 16)]

/-- Model of `urllib.parse.quote_plus` on a string. -/
def quotePlus (s : String) : String :=
  String.mk ((s.data.flatMap utf8Bytes).flatMap quoteByte)

/-- Model of `urllib.parse.urlencode` on an ordered string-valued dict. -/
def urlencode (d : List (String × String)) : String :=
  String.intercalate "&" (d.map (fun kv => quotePlus kv.1 ++ "=" ++ quotePlus kv.2))

/-- Lookup in an insertion-ordered dict (first binding wins; dicts built
below have unique keys, as Python dicts do). -/
def dictGet (d : List (String × String)) (k : String) : Option String :=
  match d with
  | [] => none
  | (k', v) :: rest => if k' = k then some v else dictGet rest k

/-- Python `k in d`: key membership in a dict. -/
def dictHasKey (d : List (String × String)) (k : String) : Bool :=
  (dictGet d k).isSome

/-- Python `d[k] = v` on an insertion-ordered dict: overwrite in place if
the key is present, append otherwise. -/
def dictSet (d : List (String × String)) (k v : String) : List (String × String) :=
  match d with
  | [] => [(k, v)]
  | (k', v') :: rest => if k' = k then (k', v) :: rest else (k', v') :: dictSet rest k v

/-- Fuel-driven worker for `strReplaceAll`: scans left to right, and at the
first position where the pattern matches, emits the replacement and resumes
after the matched text (non-overlapping), as Python `str.replace` does.
The fuel is always at least the length of the scanned list, so the
fuel-exhausted branch is unreachable. -/
def strReplaceAux (pat rep : List Char) : Nat → List Char → List Char
  | 0, l => l
  | _ + 1, [] => []
  | fuel + 1, c :: rest =>
    if pat.isPrefixOf (c :: rest) then
      rep ++ strReplaceAux pat rep fuel ((c :: rest).drop pat.length)
    else
      c :: strReplaceAux pat rep fuel rest

/-- Model of Python `s.replace(pat, rep)` for a non-empty pattern: every
non-overlapping occurrence of `pat` in `s` is replaced by `rep`. -/
def strReplaceAll (s pat rep : String) : String :=
  String.mk (strReplaceAux pat.data rep.data s.data.length s.data)

/-- Does `pat` occur as a contiguous substring of the list? -/
def listContainsSub (pat : List Char) : List Char → Bool
  | [] => pat.isEmpty
  | c :: rest => pat.isPrefixOf (c :: rest) || listContainsSub pat rest

/-- Does `pat` occur as a substring of `s`? -/
def strContainsSub (s pat : String) : Bool :=
  listContainsSub pat.data s.data

/-- Modelled from the searx framework (`searx.engines.google`), matching
the engine's docstring: the recognized time-range selectors are the Searx
ranges day, week, month and year. -/
def time_range_dict : List String := ["day", "week", "month", "year"]

/-- Locale Descriptor resolved by the external `get_lang_info`
collaborator: subdomain, interface-language code, results-language code
and an Accept-Language header value.  `request` receives it as an input;
its computation is out of scope (external collaborator). -/
structure LangInfo where
  subdomain : String
  hl : String
  lr : String
  acceptLanguage : String

/-- The mutable params bag the host passes to `request`.  `pageno` is the
1-based page number, `time_range` the optional time-range selector,
`headers` the outbound header dict, `url` the output URL field (unset on
entry), and `extra` stands for every other field of the bag, which the
adapter never touches. -/
structure Params where
  pageno : Int
  time_range : Option String
  headers : List (String × String)
  url : Option String
  extra : List (String × String)
deriving DecidableEq

/-- Embedding of `time_range_url(params)`: returns `'&' + ret_val` where
`ret_val` is `urlencode({'as_ylo': datetime.now().year - 1})` when
`params['time_range']` is a recognized selector and `''` otherwise.
`year` stands for `datetime.now().year` (external clock). -/
def time_range_url (params : Params) (year : Nat) : String :=
  let ret_val :=
    match params.time_range with
    | some tr => if tr ∈ time_range_dict then urlencode [("as_ylo", toString (year - 1))] else ""
    | none => ""
  "&" ++ ret_val

/-- The base query map `d_query_url` before the payload merge:
interface language, results language, both encodings fixed to utf8 and
the page offset. -/
def base_query (lang_info : LangInfo) (offset : Int) : List (String × String) :=
  [("hl", lang_info.hl), ("lr", lang_info.lr), ("ie", "utf8"), ("oe", "utf8"),
   ("start", toString offset)]

/-- The payload merge loop: `for k in json_query_payload: if k not in
d_query_url: d_query_url[k] = str(json_query_payload[k])`. -/
def mergePayload (acc : List (String × String)) :
    List (String × Json) → List (String × String)
  | [] => acc
  | (k, v) :: rest =>
    if dictHasKey acc k then mergePayload acc rest
    else mergePayload (acc ++ [(k, pyStr v)]) rest

/-- The merged query map `d_query_url` after the payload merge. -/
def d_query_url (lang_info : LangInfo) (offset : Int)
    (payload : List (String × Json)) : List (String × String) :=
  mergePayload (base_query lang_info offset) payload

/-- The fixed Accept header value set by `request`. -/
def acceptValue : String :=
  "text/html,application/xhtml+xml,application/xml;q=0.9,image/webp,*/*;q=0.8"

/-- Embedding of `request(query, params)`.  `json_loads_query` is the
outcome of `json.loads(query)` (stdlib, modelled at its interface: an
error for a query string that is not valid JSON, the decoded value
otherwise); `lang_info` is the Locale Descriptor resolved by the external
collaborator.  On an exception the error carries the params bag as it
stood when the exception was raised; `json.loads` runs before any
mutation of the bag, so a parse failure carries the bag unchanged.
A decoded payload that is not a JSON object makes the Python iteration
`str(json_query_payload[k])` raise a `TypeError` (or `KeyError` /
`IndexError`); it is modelled as an error carrying the unchanged bag. -/
def request (json_loads_query : Except String Json) (lang_info : LangInfo)
    (params : Params) : Except (String × Params) Params :=
  let offset : Int := (params.pageno - 1) * 10
  let subdomain := strReplaceAll lang_info.subdomain "www." "scholar."
  match json_loads_query with
  | .error e => .error (e, params)
  | .ok (.obj fields) =>
    let dq := d_query_url { lang_info with subdomain := subdomain } offset fields
    let query_url := "https://" ++ subdomain ++ "/scholar" ++ "?" ++ urlencode dq
    let params1 : Params := { params with url := some query_url }
    let params2 : Params :=
      { params1 with headers := dictSet params1.headers "Accept-Language" lang_info.acceptLanguage }
    let params3 : Params :=
      { params2 with headers := dictSet params2.headers "Accept" acceptValue }
    .ok params3
  | .ok _ => .error ("TypeError", params)

/-- One citation-container block (`div[@class="gs_ri"]`) of the upstream
HTML, modelled by the results of the fixed XPath queries `response` runs
on it (lxml / `searx.utils` are external collaborators).  `extract_text`
returns a string, empty when nothing matches, so a missing sub-element is
the empty string here; `hrefs` is the node list `./h3[1]//a/@href`. -/
structure Block where
  title : String
  hrefs : List String
  snippet : String
  pub_info : String
  pub_type : String
deriving DecidableEq

/-- The HTTP response handed to `response`, modelled by the results of
the fixed document-level queries in document order: `blocked` is whether
the external blocked-page detector raises on it, `blocks` the citation
containers, `suggestions` the texts of the suggestion links
(`gs_qsuggest_wrap` descendants) and `corrections` the texts of the
spelling-correction links (`gs_r gs_pda` children). -/
structure Resp where
  blocked : Bool
  blocks : List Block
  suggestions : List String
  corrections : List String
deriving DecidableEq

/-- Errors `response` can raise: the blocked-page condition propagated
from the detector, and the `IndexError` from `[0]` on an empty href list. -/
inductive RespErr where
  | blocked : RespErr
  | indexError : RespErr
deriving DecidableEq

/-- The title emitted for a block: the pub-type label, when present, is
appended to the title separated by a space. -/
def title_of (b : Block) : String :=
  if b.pub_type = "" then b.title else b.title ++ " " ++ b.pub_type

/-- The content emitted for a block: the snippet, with the pub-info text,
when present, appended in square brackets. -/
def content_of (b : Block) : String :=
  if b.pub_info = "" then b.snippet else b.snippet ++ "[" ++ b.pub_info ++ "]"

/-- The `{url, title, content}` record emitted for a titled block (its
href list is non-empty whenever this record is emitted). -/
def hit_record (b : Block) : List (String × String) :=
  [("url", b.hrefs.headD ""), ("title", title_of b), ("content", content_of b)]

/-- The per-block loop of `response`: blocks whose extracted title is
falsy are skipped (`continue`); otherwise `url` is `hrefs[0]` (raising
`IndexError` when the list is empty) and a `{url, title, content}` dict
is appended. -/
def parse_blocks : List Block → Except RespErr (List (List (String × String)))
  | [] => .ok []
  | b :: rest =>
    if b.title = "" then parse_blocks rest
    else
      match b.hrefs with
      | [] => .error .indexError
      | url :: _ =>
        match parse_blocks rest with
        | .error e => .error e
        | .ok rs => .ok ([("url", url), ("title", title_of b), ("content", content_of b)] :: rs)

/-- Embedding of `response(resp)`: run the blocked-page detector, walk
the citation blocks appending `{url, title, content}` records, then
append one `{suggestion}` record per suggestion link and one
`{correction}` record per correction link. -/
def response (resp : Resp) : Except RespErr (List (List (String × String))) :=
  if resp.blocked then .error .blocked
  else
    match parse_blocks resp.blocks with
    | .error e => .error e
    | .ok hits =>
      .ok (hits ++ resp.suggestions.map (fun s => [("suggestion", s)])
               ++ resp.corrections.map (fun c => [("correction", c)]))

/-- The key set of a record, in insertion order. -/
def recKeys (r : List (String × String)) : List String := r.map Prod.fst

/-- The keys of the base query map, which the payload may not override. -/
def reservedKeys : List String := ["hl", "lr", "ie", "oe", "start"]

/-- The observable output of the Request Builder: the url field and the
header dict of the params bag, whether the call succeeded or raised. -/
def urlAndHeaders : Except (String × Params) Params → Option String × List (String × String)
  | .ok p => (p.url, p.headers)
  | .error (_, p) => (p.url, p.headers)

/-- The subdomain rewrite as the spec words it (for refinement
comparison only, not a translation of the source): replace a literal
`www.` prefix with `scholar.`, and leave a subdomain without that
leading prefix unchanged. -/
def prefixRewriteSpec (s : String) : String :=
  if "www.".data.isPrefixOf s.data then "scholar." ++ String.mk (s.data.drop 4) else s

/-! Helper lemmas about the dict operations, the payload merge and the
substring replacement. -/

theorem dictGet_append_some (l1 l2 : List (String × String)) (k : String)
    (h : (dictGet l1 k).isSome) : dictGet (l1 ++ l2) k = dictGet l1 k := by
  induction l1 with
  | nil => simp [dictGet] at h
  | cons kv rest ih =>
    obtain ⟨k', v⟩ := kv
    by_cases hk : k' = k
    · simp [dictGet, hk]
    · simp only [dictGet, if_neg hk] at h ⊢
      simpa [dictGet, hk] using ih h

theorem dictGet_append_none (l1 l2 : List (String × String)) (k : String)
    (h : dictGet l1 k = none) : dictGet (l1 ++ l2) k = dictGet l2 k := by
  induction l1 with
  | nil => simp [dictGet]
  | cons kv rest ih =>
    obtain ⟨k', v⟩ := kv
    by_cases hk : k' = k
    · simp [dictGet, hk] at h
    · simp only [dictGet, if_neg hk] at h
      simpa [dictGet, hk] using ih h

theorem dictGet_append_singleton_self (l : List (String × String)) (k v : String)
    (h : dictGet l k = none) : dictGet (l ++ [(k, v)]) k = some v := by
  rw [dictGet_append_none _ _ _ h]; simp [dictGet]

theorem mergePayload_eq_append (payload : List (String × Json))
    (acc : List (String × String)) :
    ∃ ext, mergePayload acc payload = acc ++ ext := by
  induction payload generalizing acc with
  | nil => exact ⟨[], by simp [mergePayload]⟩
  | cons kv rest ih =>
    obtain ⟨k, v⟩ := kv
    by_cases h : dictHasKey acc k
    · simpa [mergePayload, h] using ih acc
    · obtain ⟨ext, hext⟩ := ih (acc ++ [(k, pyStr v)])
      exact ⟨(k, pyStr v) :: ext, by simp [mergePayload, h, hext]⟩

theorem dictGet_mergePayload_some (payload : List (String × Json))
    (acc : List (String × String)) (k : String)
    (h : (dictGet acc k).isSome) :
    dictGet (mergePayload acc payload) k = dictGet acc k := by
  obtain ⟨ext, hext⟩ := mergePayload_eq_append payload acc
  rw [hext]
  exact dictGet_append_some _ _ _ h

theorem dictGet_mergePayload_mem (payload : List (String × Json)) (k : String)
    (v : Json) (acc : List (String × String))
    (hmem : (k, v) ∈ payload) (hnodup : (payload.map Prod.fst).Nodup)
    (hacc : dictGet acc k = none) :
    dictGet (mergePayload acc payload) k = some (pyStr v) := by
  induction payload generalizing acc with
  | nil => cases hmem
  | cons kv rest ih =>
    obtain ⟨k', v'⟩ := kv
    rcases List.mem_cons.mp hmem with heq | hmem'
    · have hk : k = k' := congrArg Prod.fst heq
      have hv : v = v' := congrArg Prod.snd heq
      subst hk
      subst hv
      have hkey : dictHasKey acc k = false := by simp [dictHasKey, hacc]
      have hsome : (dictGet (acc ++ [(k, pyStr v)]) k).isSome := by
        simp [dictGet_append_singleton_self _ _ _ hacc]
      simp only [mergePayload, hkey, Bool.false_eq_true, if_false]
      rw [dictGet_mergePayload_some _ _ _ hsome,
        dictGet_append_singleton_self _ _ _ hacc]
    · have hk' : k' ≠ k := by
        intro h
        subst h
        have hmap : k' ∈ rest.map Prod.fst := List.mem_map.mpr ⟨(k', v), hmem', rfl⟩
        exact (List.nodup_cons.mp (by simpa using hnodup)).1 hmap
      have hrest : (rest.map Prod.fst).Nodup := (List.nodup_cons.mp (by simpa using hnodup)).2
      by_cases hh : dictHasKey acc k'
      · simp only [mergePayload, hh, if_true]
        exact ih acc hmem' hrest hacc
      · simp only [mergePayload, hh, Bool.false_eq_true, if_false]
        refine ih (acc ++ [(k', pyStr v')]) hmem' hrest ?_
        rw [dictGet_append_none _ _ _ hacc]
        simp [dictGet, hk']

theorem strReplaceAux_no_occurrence (pat rep : List Char) (fuel : Nat)
    (l : List Char) (h : listContainsSub pat l = false) :
    strReplaceAux pat rep fuel l = l := by
  induction fuel generalizing l with
  | zero => rfl
  | succ n ih =>
    cases l with
    | nil => rfl
    | cons c rest =>
      simp only [listContainsSub, Bool.or_eq_false_iff] at h
      obtain ⟨h1, h2⟩ := h
      simp only [strReplaceAux, h1, Bool.false_eq_true, if_false]
      rw [ih rest h2]

theorem strReplaceAll_no_occurrence (s pat rep : String)
    (h : strContainsSub s pat = false) : strReplaceAll s pat rep = s := by
  unfold strContainsSub at h
  unfold strReplaceAll
  rw [strReplaceAux_no_occurrence _ _ _ _ h]

theorem dictGet_base_query_of_not_reserved (lang_info : LangInfo) (offset : Int)
    (k : String) (hk : k ∉ reservedKeys) :
    dictGet (base_query lang_info offset) k = none := by
  simp only [reservedKeys, List.mem_cons, List.mem_singleton, not_or] at hk
  obtain ⟨h1, h2, h3, h4, h5, -⟩ := hk
  have g1 : ¬ ("hl" = k) := fun h => h1 h.symm
  have g2 : ¬ ("lr" = k) := fun h => h2 h.symm
  have g3 : ¬ ("ie" = k) := fun h => h3 h.symm
  have g4 : ¬ ("oe" = k) := fun h => h4 h.symm
  have g5 : ¬ ("start" = k) := fun h => h5 h.symm
  simp [base_query, dictGet, g1, g2, g3, g4, g5]

theorem dictGet_base_query_isSome_of_reserved (lang_info : LangInfo) (offset : Int)
    (k : String) (hk : k ∈ reservedKeys) :
    (dictGet (base_query lang_info offset) k).isSome := by
  fin_cases hk <;> simp [base_query, dictGet]

theorem dictGet_dictSet_self (d : List (String × String)) (k v : String) :
    dictGet (dictSet d k v) k = some v := by
  induction d with
  | nil => simp [dictSet, dictGet]
  | cons kv rest ih =>
    obtain ⟨k', v'⟩ := kv
    by_cases hk : k' = k
    · simp [dictSet, dictGet, hk]
    · simp [dictSet, dictGet, hk, ih]

theorem dictGet_dictSet_ne (d : List (String × String)) (k v k' : String)
    (h : ¬ k' = k) : dictGet (dictSet d k v) k' = dictGet d k' := by
  have hne : ¬ (k = k') := fun hh => h hh.symm
  induction d with
  | nil => simp [dictSet, dictGet, hne]
  | cons kv rest ih =>
    obtain ⟨k0, v0⟩ := kv
    by_cases hk : k0 = k
    · subst hk
      simp [dictSet, dictGet, hne]
    · simp [dictSet, dictGet, hk, ih]

theorem parse_blocks_ok_eq (bs : List Block)
    (hs : List (List (String × String))) (h : parse_blocks bs = .ok hs) :
    hs = (bs.filter (fun b => ¬ b.title = "")).map hit_record := by
  induction bs generalizing hs with
  | nil =>
    simp only [parse_blocks, Except.ok.injEq] at h
    simp [← h]
  | cons b rest ih =>
    by_cases ht : b.title = ""
    · rw [parse_blocks, if_pos ht] at h
      rw [ih hs h]
      simp [List.filter, ht]
    · rw [parse_blocks, if_neg ht] at h
      cases hh : b.hrefs with
      | nil => rw [hh] at h; cases h
      | cons u tl =>
        rw [hh] at h
        cases hp : parse_blocks rest with
        | error e => rw [hp] at h; cases h
        | ok rs =>
          rw [hp] at h
          simp only [Except.ok.injEq] at h
          rw [← h, ih rs hp]
          simp [List.filter, ht, hit_record, hh]

theorem response_ok_eq (resp : Resp) (recs : List (List (String × String)))
    (h : response resp = .ok recs) :
    recs = (resp.blocks.filter (fun b => ¬ b.title = "")).map hit_record
      ++ resp.suggestions.map (fun s => [("suggestion", s)])
      ++ resp.corrections.map (fun c => [("correction", c)]) := by
  unfold response at h
  by_cases hb : resp.blocked
  · rw [if_pos hb] at h; cases h
  · rw [if_neg hb] at h
    cases hp : parse_blocks resp.blocks with
    | error e => rw [hp] at h; cases h
    | ok hits =>
      rw [hp] at h
      simp only [Except.ok.injEq] at h
      rw [← h, parse_blocks_ok_eq _ _ hp]

/-! The claims. -/

/-- C1: for a query that decodes to a JSON object, the built URL's query
string is the urlencoding of the merged map `d_query_url`; every payload
key outside the reserved set \x7bhl, lr, ie, oe, start\x7d is present in
that map with its value coerced to a string, and for a payload key inside
the reserved set the payload value is ignored: the merged map gives the
base-map (computed) value. -/
theorem C1_payload_merge_policy (lang_info : LangInfo) (params : Params)
    (fields : List (String × Json))
    (hnodup : (fields.map Prod.fst).Nodup) :
    (∃ p', request (.ok (.obj fields)) lang_info params = .ok p' ∧
        p'.url = some ("https://"
          ++ strReplaceAll lang_info.subdomain "www." "scholar." ++ "/scholar" ++ "?"
          ++ urlencode (d_query_url lang_info ((params.pageno - 1) * 10) fields))) ∧
    (∀ k v, (k, v) ∈ fields → k ∉ reservedKeys →
        dictGet (d_query_url lang_info ((params.pageno - 1) * 10) fields) k
          = some (pyStr v)) ∧
    (∀ k, k ∈ reservedKeys →
        dictGet (d_query_url lang_info ((params.pageno - 1) * 10) fields) k
          = dictGet (base_query lang_info ((params.pageno - 1) * 10)) k) := by
  refine ⟨⟨_, rfl, rfl⟩, ?_, ?_⟩
  · intro k v hv hk
    unfold d_query_url
    exact dictGet_mergePayload_mem fields k v _ hv hnodup
      (dictGet_base_query_of_not_reserved _ _ _ hk)
  · intro k hk
    unfold d_query_url
    exact dictGet_mergePayload_some fields _ k
      (dictGet_base_query_isSome_of_reserved _ _ _ hk)

/-- Witness for C1 at a concrete input: payload with a fresh key `q` and
a reserved key `hl` the base map wins over. -/
theorem C1_witness :
    (([("q", Json.str "test"), ("hl", Json.str "evil")].map Prod.fst).Nodup) ∧
    ((∃ p', request (.ok (.obj [("q", Json.str "test"), ("hl", Json.str "evil")]))
          ⟨"www.google.com", "en", "lang_en", "al"⟩ ⟨2, none, [], none, []⟩ = .ok p' ∧
        p'.url = some ("https://"
          ++ strReplaceAll "www.google.com" "www." "scholar." ++ "/scholar" ++ "?"
          ++ urlencode (d_query_url ⟨"www.google.com", "en", "lang_en", "al"⟩
              (((2 : Int) - 1) * 10) [("q", Json.str "test"), ("hl", Json.str "evil")]))) ∧
    (∀ k v, (k, v) ∈ [("q", Json.str "test"), ("hl", Json.str "evil")] → k ∉ reservedKeys →
        dictGet (d_query_url ⟨"www.google.com", "en", "lang_en", "al"⟩
            (((2 : Int) - 1) * 10) [("q", Json.str "test"), ("hl", Json.str "evil")]) k
          = some (pyStr v)) ∧
    (∀ k, k ∈ reservedKeys →
        dictGet (d_query_url ⟨"www.google.com", "en", "lang_en", "al"⟩
            (((2 : Int) - 1) * 10) [("q", Json.str "test"), ("hl", Json.str "evil")]) k
          = dictGet (base_query ⟨"www.google.com", "en", "lang_en", "al"⟩
              (((2 : Int) - 1) * 10)) k)) :=
  ⟨by decide, C1_payload_merge_policy ⟨"www.google.com", "en", "lang_en", "al"⟩
    ⟨2, none, [], none, []⟩ [("q", Json.str "test"), ("hl", Json.str "evil")] (by decide)⟩

/-- C2: a query string that is not valid JSON makes the Request Builder
raise the structural parse error of `json.loads`, and the params bag at
raise time is completely unchanged: no url was set and no header entry
was written before the failure. -/
theorem C2_parse_error_no_mutation (e : String) (lang_info : LangInfo)
    (params : Params) (hurl : params.url = none) :
    ∃ p', request (.error e) lang_info params = .error (e, p') ∧
      p'.url = none ∧ p'.headers = params.headers ∧ p' = params :=
  ⟨params, rfl, hurl, rfl, rfl⟩

/-- Witness for C2 at a concrete input. -/
theorem C2_witness :
    (⟨1, none, [("User-Agent", "x")], none, []⟩ : Params).url = none ∧
    ∃ p', request (.error "Expecting value: line 1 column 1 (char 0)")
        ⟨"www.google.com", "en", "lang_en", "al"⟩
        ⟨1, none, [("User-Agent", "x")], none, []⟩
      = .error ("Expecting value: line 1 column 1 (char 0)", p') ∧
      p'.url = none ∧ p'.headers = [("User-Agent", "x")] ∧
      p' = (⟨1, none, [("User-Agent", "x")], none, []⟩ : Params) :=
  ⟨rfl, C2_parse_error_no_mutation "Expecting value: line 1 column 1 (char 0)"
    ⟨"www.google.com", "en", "lang_en", "al"⟩
    ⟨1, none, [("User-Agent", "x")], none, []⟩ rfl⟩

/-- C3: for pageno ≥ 1, the offset is (pageno − 1) × 10 and is exactly
the value of the `start` parameter of the merged query map, whose
urlencoding is the query string of the built URL. -/
theorem C3_offset_start (lang_info : LangInfo) (params : Params)
    (fields : List (String × Json)) (hpage : 1 ≤ params.pageno) :
    dictGet (d_query_url lang_info ((params.pageno - 1) * 10) fields) "start"
      = some (toString ((params.pageno - 1) * 10)) ∧
    ∃ p', request (.ok (.obj fields)) lang_info params = .ok p' ∧
      p'.url = some ("https://"
        ++ strReplaceAll lang_info.subdomain "www." "scholar." ++ "/scholar" ++ "?"
        ++ urlencode (d_query_url lang_info ((params.pageno - 1) * 10) fields)) := by
  constructor
  · unfold d_query_url
    rw [dictGet_mergePayload_some]
    · simp [base_query, dictGet]
    · simp [base_query, dictGet]
  · exact ⟨_, rfl, rfl⟩

/-- Witness for C3 at pageno = 3: offset 20. -/
theorem C3_witness :
    (1 : Int) ≤ (⟨3, none, [], none, []⟩ : Params).pageno ∧
    (dictGet (d_query_url ⟨"www.google.com", "en", "lang_en", "al"⟩
        ((((⟨3, none, [], none, []⟩ : Params)).pageno - 1) * 10) []) "start"
      = some (toString ((((⟨3, none, [], none, []⟩ : Params)).pageno - 1) * 10)) ∧
    ∃ p', request (.ok (.obj [])) ⟨"www.google.com", "en", "lang_en", "al"⟩
        ⟨3, none, [], none, []⟩ = .ok p' ∧
      p'.url = some ("https://"
        ++ strReplaceAll "www.google.com" "www." "scholar." ++ "/scholar" ++ "?"
        ++ urlencode (d_query_url ⟨"www.google.com", "en", "lang_en", "al"⟩
            ((((⟨3, none, [], none, []⟩ : Params)).pageno - 1) * 10) []))) :=
  ⟨by decide, C3_offset_start ⟨"www.google.com", "en", "lang_en", "al"⟩
    ⟨3, none, [], none, []⟩ [] (by decide)⟩

/-- Counterexample to C4 as stated: the claim says only a literal `www.`
prefix is replaced, so on the subdomain `www.www.google.com` the rewrite
would give `scholar.www.google.com`; the code's `str.replace` substitutes
every occurrence and the built URL uses `scholar.scholar.google.com`. -/
theorem C4_counterexample :
    strReplaceAll "www.www.google.com" "www." "scholar." = "scholar.scholar.google.com" ∧
    prefixRewriteSpec "www.www.google.com" = "scholar.www.google.com" ∧
    ("scholar.scholar.google.com" : String) ≠ "scholar.www.google.com" ∧
    request (.ok (.obj [])) ⟨"www.www.google.com", "en", "lang_en", "al"⟩
        ⟨1, none, [], none, []⟩
      = .ok ⟨1, none, [("Accept-Language", "al"), ("Accept", acceptValue)],
          some "https://scholar.scholar.google.com/scholar?hl=en&lr=lang_en&ie=utf8&oe=utf8&start=0",
          []⟩ :=
  ⟨by decide, by decide, by decide, by rfl⟩

/-- C4 (amended): the Request Builder rewrites the resolved subdomain by
replacing every occurrence of the substring `www.` with `scholar.`
(Python `str.replace`), not only a leading prefix, and uses the result in
the final URL `https://\x7bsubdomain\x7d/scholar?...`; when the resolved
subdomain does not contain the substring `www.` at all, it is left
unchanged. -/
theorem C4_subdomain_rewrite (lang_info : LangInfo) (params : Params)
    (fields : List (String × Json)) :
    (∃ p', request (.ok (.obj fields)) lang_info params = .ok p' ∧
        p'.url = some ("https://"
          ++ strReplaceAll lang_info.subdomain "www." "scholar." ++ "/scholar" ++ "?"
          ++ urlencode (d_query_url lang_info ((params.pageno - 1) * 10) fields))) ∧
    (strContainsSub lang_info.subdomain "www." = false →
        strReplaceAll lang_info.subdomain "www." "scholar." = lang_info.subdomain) :=
  ⟨⟨_, rfl, rfl⟩, fun h => strReplaceAll_no_occurrence _ _ _ h⟩

/-- Witness for C4 (amended) at a concrete input whose subdomain contains
no `www.` substring, so the no-occurrence hypothesis is dischargeable. -/
theorem C4_witness :
    strContainsSub "google.de" "www." = false ∧
    ((∃ p', request (.ok (.obj [])) ⟨"google.de", "de", "lang_de", "al"⟩
          ⟨1, none, [], none, []⟩ = .ok p' ∧
        p'.url = some ("https://"
          ++ strReplaceAll "google.de" "www." "scholar." ++ "/scholar" ++ "?"
          ++ urlencode (d_query_url ⟨"google.de", "de", "lang_de", "al"⟩
              (((1 : Int) - 1) * 10) []))) ∧
    (strContainsSub "google.de" "www." = false →
        strReplaceAll "google.de" "www." "scholar." = "google.de")) :=
  ⟨by decide, C4_subdomain_rewrite ⟨"google.de", "de", "lang_de", "al"⟩
    ⟨1, none, [], none, []⟩ []⟩

/-- C8: the Request Builder never consults the time-range field (the
time-range helper is not invoked): for every query payload and every two
params bags that differ only in `time_range`, the produced url and header
entries are identical, whether the call succeeds or raises. -/
theorem C8_time_range_inert (json_loads_query : Except String Json)
    (lang_info : LangInfo) (pg : Int) (hd : List (String × String))
    (u : Option String) (ex : List (String × String)) (tr1 tr2 : Option String) :
    urlAndHeaders (request json_loads_query lang_info ⟨pg, tr1, hd, u, ex⟩)
      = urlAndHeaders (request json_loads_query lang_info ⟨pg, tr2, hd, u, ex⟩) := by
  cases json_loads_query with
  | error e => rfl
  | ok j => cases j <;> rfl

/-- C9: on every successful invocation the Request Builder mutates only
the url field and the Accept-Language and Accept header entries; the
page number, the time range, every other header entry and all remaining
fields of the bag are unchanged (and a url is actually set). -/
theorem C9_frame (json_loads_query : Except String Json) (lang_info : LangInfo)
    (params p' : Params)
    (h : request json_loads_query lang_info params = .ok p') :
    p'.pageno = params.pageno ∧ p'.time_range = params.time_range ∧
    p'.extra = params.extra ∧
    (∀ k, ¬ k = "Accept-Language" → ¬ k = "Accept" →
      dictGet p'.headers k = dictGet params.headers k) ∧
    ∃ u, p'.url = some u := by
  cases json_loads_query with
  | error e => cases h
  | ok j =>
    cases j with
    | null => cases h
    | bool b => cases h
    | num n => cases h
    | str s => cases h
    | arr xs => cases h
    | obj fields =>
      have h' : (⟨params.pageno, params.time_range,
          dictSet (dictSet params.headers "Accept-Language" lang_info.acceptLanguage)
            "Accept" acceptValue,
          some ("https://" ++ strReplaceAll lang_info.subdomain "www." "scholar."
            ++ "/scholar" ++ "?"
            ++ urlencode (d_query_url lang_info ((params.pageno - 1) * 10) fields)),
          params.extra⟩ : Params) = p' := by
        exact Except.ok.inj h
      rw [← h']
      refine ⟨rfl, rfl, rfl, ?_, ⟨_, rfl⟩⟩
      intro k hAL hA
      rw [dictGet_dictSet_ne _ _ _ _ hA, dictGet_dictSet_ne _ _ _ _ hAL]

/-- Witness for C9 at a concrete successful invocation. -/
theorem C9_witness :
    request (.ok (.obj [("q", Json.str "test")])) ⟨"www.google.com", "en", "lang_en", "al"⟩
        ⟨2, some "year", [("X", "y")], none, [("m", "GET")]⟩
      = .ok ⟨2, some "year",
          [("X", "y"), ("Accept-Language", "al"), ("Accept", acceptValue)],
          some "https://scholar.google.com/scholar?hl=en&lr=lang_en&ie=utf8&oe=utf8&start=10&q=test",
          [("m", "GET")]⟩ ∧
    ((⟨2, some "year", [("X", "y"), ("Accept-Language", "al"), ("Accept", acceptValue)],
        some "https://scholar.google.com/scholar?hl=en&lr=lang_en&ie=utf8&oe=utf8&start=10&q=test",
        [("m", "GET")]⟩ : Params).pageno
        = (⟨2, some "year", [("X", "y")], none, [("m", "GET")]⟩ : Params).pageno ∧
      (⟨2, some "year", [("X", "y"), ("Accept-Language", "al"), ("Accept", acceptValue)],
        some "https://scholar.google.com/scholar?hl=en&lr=lang_en&ie=utf8&oe=utf8&start=10&q=test",
        [("m", "GET")]⟩ : Params).time_range
        = (⟨2, some "year", [("X", "y")], none, [("m", "GET")]⟩ : Params).time_range ∧
      (⟨2, some "year", [("X", "y"), ("Accept-Language", "al"), ("Accept", acceptValue)],
        some "https://scholar.google.com/scholar?hl=en&lr=lang_en&ie=utf8&oe=utf8&start=10&q=test",
        [("m", "GET")]⟩ : Params).extra
        = (⟨2, some "year", [("X", "y")], none, [("m", "GET")]⟩ : Params).extra ∧
      (∀ k, ¬ k = "Accept-Language" → ¬ k = "Accept" →
        dictGet (⟨2, some "year",
            [("X", "y"), ("Accept-Language", "al"), ("Accept", acceptValue)],
            some "https://scholar.google.com/scholar?hl=en&lr=lang_en&ie=utf8&oe=utf8&start=10&q=test",
            [("m", "GET")]⟩ : Params).headers k
          = dictGet (⟨2, some "year", [("X", "y")], none, [("m", "GET")]⟩ : Params).headers k) ∧
      ∃ u, (⟨2, some "year", [("X", "y"), ("Accept-Language", "al"), ("Accept", acceptValue)],
        some "https://scholar.google.com/scholar?hl=en&lr=lang_en&ie=utf8&oe=utf8&start=10&q=test",
        [("m", "GET")]⟩ : Params).url = some u) :=
  ⟨by rfl, C9_frame (.ok (.obj [("q", Json.str "test")]))
    ⟨"www.google.com", "en", "lang_en", "al"⟩
    ⟨2, some "year", [("X", "y")], none, [("m", "GET")]⟩
    ⟨2, some "year", [("X", "y"), ("Accept-Language", "al"), ("Accept", acceptValue)],
      some "https://scholar.google.com/scholar?hl=en&lr=lang_en&ie=utf8&oe=utf8&start=10&q=test",
      [("m", "GET")]⟩ (by rfl)⟩

/-- C10: the time-range helper always returns a string beginning with the
character `&` — never the empty string: `&` followed by the urlencoded
`as_ylo = current year − 1` constraint for a recognized selector, and
exactly the one-character string `&` when the selector is absent or
unrecognized. -/
theorem C10_ampersand (params : Params) (year : Nat) :
    (∃ t, time_range_url params year = "&" ++ t) ∧
    time_range_url params year ≠ "" ∧
    time_range_url params year =
      (match params.time_range with
       | some tr =>
         if tr ∈ time_range_dict then
           "&" ++ urlencode [("as_ylo", toString (year - 1))]
         else "&"
       | none => "&") := by
  refine ⟨⟨_, rfl⟩, ?_, ?_⟩
  · obtain ⟨t, ht⟩ : ∃ t, time_range_url params year = "&" ++ t := ⟨_, rfl⟩
    rw [ht]
    intro hcontra
    have hdata := congrArg String.data hcontra
    rw [String.data_append] at hdata
    simp at hdata
  · unfold time_range_url
    cases params.time_range with
    | none => simp [String.append_empty]
    | some tr =>
      by_cases h : tr ∈ time_range_dict
      · simp [h]
      · simp [h, String.append_empty]

/-- C5: a citation block whose first heading-level anchor yields no title
text is skipped entirely — the hit records are exactly the titled blocks'
records, in order — and every emitted `\x7burl, title, content\x7d`
record comes from a block with a non-empty title. -/
theorem C5_titleless_skipped (resp : Resp) (recs : List (List (String × String)))
    (h : response resp = .ok recs) :
    recs.filter (fun r => (dictGet r "url").isSome)
      = (resp.blocks.filter (fun b => ¬ b.title = "")).map hit_record ∧
    ∀ r ∈ recs, (dictGet r "url").isSome = true →
      ∃ b, b ∈ resp.blocks ∧ ¬ b.title = "" ∧ r = hit_record b := by
  have hd := response_ok_eq resp recs h
  subst hd
  constructor
  · rw [List.filter_append, List.filter_append]
    have h1 : ((resp.blocks.filter (fun b => ¬ b.title = "")).map hit_record).filter
        (fun r => (dictGet r "url").isSome)
        = (resp.blocks.filter (fun b => ¬ b.title = "")).map hit_record := by
      apply List.filter_eq_self.mpr
      intro r hr
      obtain ⟨b, hb, rfl⟩ := List.mem_map.mp hr
      simp [hit_record, dictGet]
    have h2 : (resp.suggestions.map (fun s => [("suggestion", s)])).filter
        (fun r => (dictGet r "url").isSome) = [] := by
      rw [List.filter_eq_nil_iff]
      intro r hr
      obtain ⟨s, hs, rfl⟩ := List.mem_map.mp hr
      simp [dictGet]
    have h3 : (resp.corrections.map (fun c => [("correction", c)])).filter
        (fun r => (dictGet r "url").isSome) = [] := by
      rw [List.filter_eq_nil_iff]
      intro r hr
      obtain ⟨c, hc, rfl⟩ := List.mem_map.mp hr
      simp [dictGet]
    rw [h1, h2, h3]
    simp
  · intro r hr hurl
    rcases List.mem_append.mp hr with hr1 | hr2
    · rcases List.mem_append.mp hr1 with hh | hs
      · obtain ⟨b, hb, rfl⟩ := List.mem_map.mp hh
        obtain ⟨hbmem, hbt⟩ := List.mem_filter.mp hb
        exact ⟨b, hbmem, by simpa using hbt, rfl⟩
      · obtain ⟨s, hs', rfl⟩ := List.mem_map.mp hs
        simp [dictGet] at hurl
    · obtain ⟨c, hc, rfl⟩ := List.mem_map.mp hr2
      simp [dictGet] at hurl

/-- C6: the parser's output is all `\x7burl, title, content\x7d` records
in document order, then all `\x7bsuggestion\x7d` records, then all
`\x7bcorrection\x7d` records, and each record has exactly one of those
three key sets. -/
theorem C6_order_and_shape (resp : Resp) (recs : List (List (String × String)))
    (h : response resp = .ok recs) :
    recs = (resp.blocks.filter (fun b => ¬ b.title = "")).map hit_record
        ++ resp.suggestions.map (fun s => [("suggestion", s)])
        ++ resp.corrections.map (fun c => [("correction", c)]) ∧
    ∀ r ∈ recs,
      (recKeys r = ["url", "title", "content"] ∧ ¬ recKeys r = ["suggestion"]
          ∧ ¬ recKeys r = ["correction"]) ∨
      (recKeys r = ["suggestion"] ∧ ¬ recKeys r = ["url", "title", "content"]
          ∧ ¬ recKeys r = ["correction"]) ∨
      (recKeys r = ["correction"] ∧ ¬ recKeys r = ["url", "title", "content"]
          ∧ ¬ recKeys r = ["suggestion"]) := by
  have hd := response_ok_eq resp recs h
  refine ⟨hd, ?_⟩
  intro r hr
  rw [hd] at hr
  rcases List.mem_append.mp hr with hr1 | hr2
  · rcases List.mem_append.mp hr1 with hh | hs
    · obtain ⟨b, hb, rfl⟩ := List.mem_map.mp hh
      exact Or.inl ⟨rfl, by simp [recKeys, hit_record], by simp [recKeys, hit_record]⟩
    · obtain ⟨s, hs', rfl⟩ := List.mem_map.mp hs
      exact Or.inr (Or.inl ⟨rfl, by simp [recKeys], by simp [recKeys]⟩)
  · obtain ⟨c, hc, rfl⟩ := List.mem_map.mp hr2
    exact Or.inr (Or.inr ⟨rfl, by simp [recKeys], by simp [recKeys]⟩)

/-- C7: every emitted hit record's content is the block's snippet text
(empty when the snippet sub-element is absent), and when the pub-info
sub-element is present and non-empty the content is the snippet
immediately followed by the pub-info text in square brackets, so it ends
with the literal substring `[pub_info]`. -/
theorem C7_content_format (resp : Resp) (recs : List (List (String × String)))
    (h : response resp = .ok recs) :
    ∀ r ∈ recs, (dictGet r "url").isSome = true →
      ∃ b, b ∈ resp.blocks ∧ r = hit_record b ∧
        dictGet r "content" = some (content_of b) ∧
        (b.pub_info = "" → content_of b = b.snippet) ∧
        (¬ b.pub_info = "" →
          content_of b = b.snippet ++ "[" ++ b.pub_info ++ "]" ∧
          ∃ pre, content_of b = pre ++ ("[" ++ b.pub_info ++ "]")) := by
  have hd := response_ok_eq resp recs h
  intro r hr hurl
  rw [hd] at hr
  rcases List.mem_append.mp hr with hr1 | hr2
  · rcases List.mem_append.mp hr1 with hh | hs
    · obtain ⟨b, hb, rfl⟩ := List.mem_map.mp hh
      refine ⟨b, (List.mem_filter.mp hb).1, rfl, by simp [hit_record, dictGet], ?_, ?_⟩
      · intro hpi
        unfold content_of
        rw [if_pos hpi]
      · intro hpi
        unfold content_of
        rw [if_neg hpi]
        refine ⟨rfl, b.snippet, ?_⟩
        simp [String.append_assoc]
    · obtain ⟨s, hs', rfl⟩ := List.mem_map.mp hs
      simp [dictGet] at hurl
  · obtain ⟨c, hc, rfl⟩ := List.mem_map.mp hr2
    simp [dictGet] at hurl

/-- Witness for C5 at a concrete document with one titled block and one
citation-only (titleless) block: exactly one hit record is emitted. -/
theorem C5_witness :
    response ⟨false, [⟨"Paper A", ["http://a"], "snip", "J Smith - 2020", "[PDF]"⟩,
        ⟨"", [], "x", "y", ""⟩], ["sug1"], ["cor1"]⟩
      = .ok [[("url", "http://a"), ("title", "Paper A [PDF]"),
              ("content", "snip[J Smith - 2020]")],
             [("suggestion", "sug1")], [("correction", "cor1")]] ∧
    (([[("url", "http://a"), ("title", "Paper A [PDF]"),
        ("content", "snip[J Smith - 2020]")],
       [("suggestion", "sug1")], [("correction", "cor1")]].filter
          (fun r => (dictGet r "url").isSome))
      = (([⟨"Paper A", ["http://a"], "snip", "J Smith - 2020", "[PDF]"⟩,
          ⟨"", [], "x", "y", ""⟩] : List Block).filter
            (fun b => ¬ b.title = "")).map hit_record ∧
    ∀ r ∈ [[("url", "http://a"), ("title", "Paper A [PDF]"),
            ("content", "snip[J Smith - 2020]")],
           [("suggestion", "sug1")], [("correction", "cor1")]],
      (dictGet r "url").isSome = true →
      ∃ b, b ∈ ([⟨"Paper A", ["http://a"], "snip", "J Smith - 2020", "[PDF]"⟩,
          ⟨"", [], "x", "y", ""⟩] : List Block) ∧ ¬ b.title = "" ∧ r = hit_record b) :=
  ⟨by rfl, C5_titleless_skipped
    ⟨false, [⟨"Paper A", ["http://a"], "snip", "J Smith - 2020", "[PDF]"⟩,
      ⟨"", [], "x", "y", ""⟩], ["sug1"], ["cor1"]⟩
    [[("url", "http://a"), ("title", "Paper A [PDF]"),
      ("content", "snip[J Smith - 2020]")],
     [("suggestion", "sug1")], [("correction", "cor1")]] (by rfl)⟩

/-- Witness for C6 at a concrete document with one titled block, two
suggestion links and one correction link. -/
theorem C6_witness :
    response ⟨false, [⟨"T1", ["u1"], "", "", ""⟩], ["s1", "s2"], ["c1"]⟩
      = .ok [[("url", "u1"), ("title", "T1"), ("content", "")],
             [("suggestion", "s1")], [("suggestion", "s2")], [("correction", "c1")]] ∧
    ([[("url", "u1"), ("title", "T1"), ("content", "")],
      [("suggestion", "s1")], [("suggestion", "s2")], [("correction", "c1")]]
      = (([⟨"T1", ["u1"], "", "", ""⟩] : List Block).filter
            (fun b => ¬ b.title = "")).map hit_record
        ++ ["s1", "s2"].map (fun s => [("suggestion", s)])
        ++ ["c1"].map (fun c => [("correction", c)]) ∧
    ∀ r ∈ [[("url", "u1"), ("title", "T1"), ("content", "")],
           [("suggestion", "s1")], [("suggestion", "s2")], [("correction", "c1")]],
      (recKeys r = ["url", "title", "content"] ∧ ¬ recKeys r = ["suggestion"]
          ∧ ¬ recKeys r = ["correction"]) ∨
      (recKeys r = ["suggestion"] ∧ ¬ recKeys r = ["url", "title", "content"]
          ∧ ¬ recKeys r = ["correction"]) ∨
      (recKeys r = ["correction"] ∧ ¬ recKeys r = ["url", "title", "content"]
          ∧ ¬ recKeys r = ["suggestion"])) :=
  ⟨by rfl, C6_order_and_shape ⟨false, [⟨"T1", ["u1"], "", "", ""⟩], ["s1", "s2"], ["c1"]⟩
    [[("url", "u1"), ("title", "T1"), ("content", "")],
     [("suggestion", "s1")], [("suggestion", "s2")], [("correction", "c1")]] (by rfl)⟩

/-- Witness for C7 at a concrete block whose pub-info text is
`J Smith - 2020`: the emitted content ends with `[J Smith - 2020]`. -/
theorem C7_witness :
    response ⟨false, [⟨"T2", ["u2"], "snippet B", "J Smith - 2020", ""⟩], [], []⟩
      = .ok [[("url", "u2"), ("title", "T2"),
              ("content", "snippet B[J Smith - 2020]")]] ∧
    ∀ r ∈ [[("url", "u2"), ("title", "T2"),
            ("content", "snippet B[J Smith - 2020]")]],
      (dictGet r "url").isSome = true →
      ∃ b, b ∈ ([⟨"T2", ["u2"], "snippet B", "J Smith - 2020", ""⟩] : List Block) ∧
        r = hit_record b ∧
        dictGet r "content" = some (content_of b) ∧
        (b.pub_info = "" → content_of b = b.snippet) ∧
        (¬ b.pub_info = "" →
          content_of b = b.snippet ++ "[" ++ b.pub_info ++ "]" ∧
          ∃ pre, content_of b = pre ++ ("[" ++ b.pub_info ++ "]")) :=
  ⟨by rfl, C7_content_format ⟨false, [⟨"T2", ["u2"], "snippet B", "J Smith - 2020", ""⟩], [], []⟩
    [[("url", "u2"), ("title", "T2"), ("content", "snippet B[J Smith - 2020]")]] (by rfl)⟩

end GScholar
